import Mathlib

/-!
Verification of the AI-study-buddy flashcard generation pipeline
(`backend/services/ai_service.py`, `backend/utils/text_processing.py`).

The Python code is shallowly embedded: strings are Lean `String`s
(`List Char` underneath), Python float literals are modelled as exact
rationals (the only float arithmetic in scope adds literals such as 0.5,
which is exact in binary floating point as well), the regular expressions
used by the source are implemented directly as character-level scanners
whose doc comments record the regex fragment they implement, and network
calls are modelled as abstract outcomes (a value or a raised exception).
-/

/-- Python `str.lower()` restricted to ASCII input (the source only ever
lowercases ASCII text). -/
def pyLower (s : String) : String := (s.data.map Char.toLower).asString

/-- Substring scan: does `needle` occur (contiguously) in the list? -/
def isSubstrOf (needle : List Char) : List Char → Bool
  | [] => needle.isPrefixOf ([] : List Char)
  | c :: rest => needle.isPrefixOf (c :: rest) || isSubstrOf needle rest

/-- Python `needle in hay` substring test for strings. -/
def strContains (hay needle : String) : Bool :=
  isSubstrOf needle.data hay.data

/-- Characters matched by Python regex `\s` and split by `str.split()`
(ASCII range). -/
def isPyWs (c : Char) : Bool :=
  c = ' ' || c = '\t' || c = '\n' || c = '\r' || c = '\x0b' || c = '\x0c'

/-- Helper for `str.split()`: whitespace-separated words of a character
list (`acc` holds the current word reversed). -/
def wordsAux (acc : List Char) : List Char → List (List Char)
  | [] => if acc = [] then [] else [acc.reverse]
  | c :: rest =>
      if isPyWs c then
        if acc = [] then wordsAux [] rest else acc.reverse :: wordsAux [] rest
      else wordsAux (c :: acc) rest

/-- Python `str.split()` with no arguments: split on whitespace runs,
dropping empty pieces. -/
def pySplit (s : String) : List String :=
  (wordsAux [] s.data).map List.asString

/-- Python `str.strip()` with no arguments (ASCII whitespace set). -/
def pyStrip (s : String) : String :=
  (((s.data.dropWhile isPyWs).reverse.dropWhile isPyWs).reverse).asString

/-- Python `str.endswith(suffix)`. -/
def strEndsWith (s suffix : String) : Bool :=
  suffix.data.isSuffixOf s.data

/-- Python `str.isalpha()` for ASCII text: nonempty and every character
alphabetic. -/
def pyIsAlpha (s : String) : Bool :=
  s ≠ "" && s.data.all Char.isAlpha

/-- Helper for Python `str.replace(old, new, 1)`: replace the first
occurrence of `old` in the character list. -/
def replaceFirstAux (old new : List Char) : List Char → List Char
  | [] => if old.isPrefixOf ([] : List Char) then new else []
  | c :: rest =>
      if old.isPrefixOf (c :: rest) then new ++ (c :: rest).drop old.length
      else c :: replaceFirstAux old new rest

/-- Python `s.replace(old, new, 1)`. -/
def pyReplaceFirst (s old new : String) : String :=
  (replaceFirstAux old.data new.data s.data).asString

/-- `FlashcardPair` dataclass from `ai_service.py` (confidence modelled as
an exact rational). -/
structure FlashcardPair where
  question : String
  answer : String
  difficulty : String := "medium"
  confidence : ℚ := 0
deriving DecidableEq, Repr

/-- The dictionaries handled by `validate_flashcard_quality` (produced by
`generate_flashcards_with_ai`); the validator reads only `question` and
`answer` and passes the record through unchanged. -/
structure CardDict where
  question : String
  answer : String
  difficulty_level : String := "medium"
  confidence : ℚ := 0
deriving DecidableEq, Repr

/-- `complex_words` list from `assess_difficulty`. -/
def complex_words : List String :=
  ["analyze", "evaluate", "synthesize", "compare", "contrast"]

/-- `AIFlashcardGenerator.assess_difficulty` from `ai_service.py`. -/
def assess_difficulty (question answer : String) : String :=
  let question_length := (pySplit question).length
  let answer_length := (pySplit answer).length
  let has_complex_words :=
    complex_words.any (fun word => strContains (pyLower question) word)
  if has_complex_words || answer_length > 20 then "hard"
  else if question_length > 10 || answer_length > 10 then "medium"
  else "easy"

/-- The accumulation loop of `validate_flashcard_quality`: `validated` is
the list built so far; each card is dropped when its trimmed question is
shorter than 5 or its trimmed answer shorter than 3, or when some
earlier-kept card's raw question equals the candidate's trimmed question
case-insensitively. -/
def validateLoop (validated : List CardDict) : List CardDict → List CardDict
  | [] => validated
  | card :: rest =>
      let question := pyStrip card.question
      let answer := pyStrip card.answer
      if question.length < 5 ∨ answer.length < 3 then
        validateLoop validated rest
      else if validated.any
          (fun existing => pyLower existing.question = pyLower question) then
        validateLoop validated rest
      else
        validateLoop (validated ++ [card]) rest

/-- `validate_flashcard_quality` from `ai_service.py`. -/
def validate_flashcard_quality (flashcards : List CardDict) : List CardDict :=
  validateLoop [] flashcards

/-- Characters in the class `[.!?]` used by `_split_into_sentences`. -/
def isSentenceDelim (c : Char) : Bool := c = '.' || c = '!' || c = '?'

/-- `re.split(r'[.!?]+', text)` on the character level: the fragments
separated by maximal runs of sentence delimiters; leading and trailing
runs produce empty fragments, exactly as in Python.  A delimiter
followed by another delimiter belongs to the same run (the split it
causes has already happened further right); a delimiter followed by a
non-delimiter (or by the end) closes the fragment to its left. -/
def splitRuns : List Char → List (List Char)
  | [] => [[]]
  | c :: rest =>
      let r := splitRuns rest
      if isSentenceDelim c then
        match rest with
        | d :: _ => if isSentenceDelim d then r else [] :: r
        | [] => [] :: r
      else
        match r with
        | f :: fs => (c :: f) :: fs
        | [] => [[c]]

/-- `re.split(r'[.!?]+', text)` from `_split_into_sentences`. -/
def reSplitSent (text : String) : List String :=
  (splitRuns text.data).map List.asString

/-- `AIFlashcardGenerator._split_into_sentences`: regex split on `[.!?]+`
followed by the comprehension that strips each fragment and keeps only
those with stripped length strictly greater than 20. -/
def split_into_sentences (text : String) : List String :=
  ((reSplitSent text).map pyStrip).filter (fun s => 20 < s.length)

/-- Word characters for Python regex `\b` boundaries (ASCII `\w`). -/
def isWordChar (c : Char) : Bool := c.isAlphanum || c = '_'

/-- The class `[A-Z]`. -/
def isUpperAZ (c : Char) : Bool := 'A' ≤ c && c ≤ 'Z'

/-- The class `[a-z]`. -/
def isLowerAZ (c : Char) : Bool := 'a' ≤ c && c ≤ 'z'

/-- Parse one `[A-Z][a-z]+` word at the head of the list, returning the
matched characters and the remainder.  The lowercase run is maximal: a
shorter run would leave the next character a lowercase letter, which can
satisfy neither a following `\s+` nor a `\b`. -/
def capWordAt : List Char → Option (List Char × List Char)
  | [] => none
  | c :: rest =>
      if isUpperAZ c then
        let low := rest.takeWhile isLowerAZ
        if low ≠ [] then some (c :: low, rest.dropWhile isLowerAZ) else none
      else none

/-- The `(?:\s+[A-Z][a-z]+)*\b` tail of the capitalized-run pattern
`\b[A-Z][a-z]+(?:\s+[A-Z][a-z]+)*\b` from `_extract_key_concepts`.
`acc` is the text matched so far and `cs` the position just after a
lowercase run.  The greedy repetition extends the run whenever `\s+`
followed by another capitalized word is present; when the final `\b`
fails after the last word (next character is a word character) the
regex backtracks by dropping that word, which always lands on a
whitespace position where `\b` holds — mirrored here by falling back to
the boundary check at `cs`. -/
def capChain (fuel : Nat) (acc : List Char) (cs : List Char) :
    Option (List Char × List Char) :=
  match fuel with
  | 0 => none
  | fuel + 1 =>
      let ws := cs.takeWhile isPyWs
      let ext :=
        if ws ≠ [] then
          match capWordAt (cs.dropWhile isPyWs) with
          | some (w, cs') => capChain fuel (acc ++ ws ++ w) cs'
          | none => none
        else none
      match ext with
      | some r => some r
      | none =>
          match cs with
          | [] => some (acc, [])
          | c :: _ => if isWordChar c then none else some (acc, cs)

/-- Try to match `[A-Z][a-z]+(?:\s+[A-Z][a-z]+)*\b` at the current
position (the leading `\b` is checked by the caller). -/
def capMatchAt (fuel : Nat) (cs : List Char) : Option (List Char × List Char) :=
  match capWordAt cs with
  | some (w, cs') => capChain fuel w cs'
  | none => none

/-- `re.findall(r'\b[A-Z][a-z]+(?:\s+[A-Z][a-z]+)*\b', text)`: scan every
position whose previous character is not a word character (the leading
`\b`), emit non-overlapping matches left to right. -/
def capFindallAux (fuel : Nat) (prevWord : Bool) (cs : List Char) : List String :=
  match fuel with
  | 0 => []
  | fuel + 1 =>
      match cs with
      | [] => []
      | c :: rest =>
          if prevWord then capFindallAux fuel (isWordChar c) rest
          else
            match capMatchAt (cs.length + 1) cs with
            | some (m, cs') => m.asString :: capFindallAux fuel true cs'
            | none => capFindallAux fuel (isWordChar c) rest

/-- The capitalized-run source of `_extract_key_concepts`. -/
def capitalizedFindall (text : String) : List String :=
  capFindallAux (text.data.length + 1) false text.data

/-- `re.findall(r'"([^"]+)"', text)`: scan for a double quote, capture the
maximal nonempty run of non-quote characters, require the closing quote,
continue after it; a failed start position advances the scan by one. -/
def quotedFindallAux (fuel : Nat) (cs : List Char) : List String :=
  match fuel with
  | 0 => []
  | fuel + 1 =>
      match cs with
      | [] => []
      | '"' :: rest =>
          let content := rest.takeWhile (fun c => c ≠ '"')
          match rest.dropWhile (fun c => c ≠ '"') with
          | '"' :: rest' =>
              if content ≠ [] then
                content.asString :: quotedFindallAux fuel rest'
              else quotedFindallAux fuel rest
          | _ => quotedFindallAux fuel rest
      | _ :: rest => quotedFindallAux fuel rest

/-- The double-quoted source of `_extract_key_concepts`. -/
def quotedFindall (text : String) : List String :=
  quotedFindallAux (text.data.length + 1) text.data

/-- Matches of the source pattern `$$([^)]+)$$` (the "terms in
parentheses" regex of `_extract_key_concepts`).  `$` is a zero-width
end-of-string assertion that also matches just before a trailing
newline, so the only way `[^)]+` can consume characters between two `$`
positions is when the text ends in a newline; the sole match is then
that newline character.  The pattern therefore never captures
parenthesized text. -/
def parenMatches (text : String) : List String :=
  if text.data.getLast? = some '\n' then ["\n"] else []

/-- `AIFlashcardGenerator._extract_key_concepts`.  Python's
`list(set(concepts))` has an unspecified iteration order; it is modelled
as `List.dedup` (membership, which the claims use, is order-independent). -/
def extract_key_concepts (text : String) : List String :=
  let concepts := capitalizedFindall text ++ quotedFindall text ++ parenMatches text
  let unique_concepts := concepts.dedup
  unique_concepts.filter (fun c => 2 < c.length && c.length < 50)

/-- One concept card from step 1 of `_create_fallback_flashcards`: answer
is the first sentence containing the concept (case-insensitive substring),
or the synthetic `This relates to {concept}` text. -/
def conceptCard (sentences : List String) (concept : String) : FlashcardPair :=
  let relevant_sentences :=
    sentences.filter (fun s => strContains (pyLower s) (pyLower concept))
  let context :=
    match relevant_sentences with
    | c :: _ => c
    | [] => "This relates to " ++ concept
  { question := "What is " ++ concept ++ "?"
    answer := context
    difficulty := "medium"
    confidence := mkRat 3 10 }

/-- One blank card from step 2 of `_create_fallback_flashcards`: for a
sentence of more than 5 whitespace-separated words, blank the first
alphabetic word longer than 4 characters; `none` when the sentence yields
no eligible word. -/
def blankCard (sentence : String) : Option FlashcardPair :=
  let words := pySplit sentence
  if 5 < words.length then
    let important_words := words.filter (fun w => 4 < w.length && pyIsAlpha w)
    match important_words with
    | word_to_blank :: _ =>
        some
          { question :=
              "Fill in the blank: " ++ pyReplaceFirst sentence word_to_blank "______"
            answer := word_to_blank
            difficulty := "medium"
            confidence := mkRat 4 10 }
    | [] => none
  else none

/-- The step-2 loop of `_create_fallback_flashcards` over its (already
sliced) sentence window: ineligible sentences append nothing. -/
def blankLoop : List String → List FlashcardPair
  | [] => []
  | s :: rest =>
      match blankCard s with
      | some card => card :: blankLoop rest
      | none => blankLoop rest

/-- The placeholder card appended by the final `while` loop of
`_create_fallback_flashcards` when `n` cards are already present. -/
def placeholderCard (n : Nat) : FlashcardPair :=
  { question := "Review question " ++ toString n
    answer := "Please review your study notes for this concept."
    difficulty := "medium"
    confidence := mkRat 1 10 }

/-- The `while len(flashcards) < count` padding loop of
`_create_fallback_flashcards`, phrased with a step budget so that the
recursion is structural; `padLoop` passes budget `count`, which is
enough since each pass grows the list by one card and the loop stops as
soon as `count` cards are present. -/
def padLoopAux : Nat → List FlashcardPair → Nat → List FlashcardPair
  | 0, cards, _ => cards
  | fuel + 1, cards, count =>
      if cards.length < count then
        padLoopAux fuel (cards ++ [placeholderCard (cards.length + 1)]) count
      else cards

/-- The padding `while` loop of `_create_fallback_flashcards`. -/
def padLoop (cards : List FlashcardPair) (count : Nat) : List FlashcardPair :=
  padLoopAux count cards count

/-- `AIFlashcardGenerator._create_fallback_flashcards`. -/
def create_fallback_flashcards (notes : String) (count : Nat) : List FlashcardPair :=
  let sentences := split_into_sentences notes
  let key_concepts := extract_key_concepts notes
  let step1 := (key_concepts.take (count / 2)).map (conceptCard sentences)
  let remaining_count := count - step1.length
  let step2 := blankLoop (sentences.take remaining_count)
  (padLoop (step1 ++ step2) count).take count

/-- Case-insensitive literal match (`re.IGNORECASE`): returns the
remainder when the list starts with `lit` up to ASCII case. -/
def matchCI : List Char → List Char → Option (List Char)
  | [], cs => some cs
  | _ :: _, [] => none
  | l :: ls, c :: cs => if c.toLower = l.toLower then matchCI ls cs else none

/-- `$` without `re.MULTILINE`: end of input, or just before a trailing
newline. -/
def lookAtEnd (cs : List Char) : Bool := cs = [] || cs = ['\n']

/-- The lookahead `(?=Q:|$)` of the first parsing pattern. -/
def p1Look (cs : List Char) : Bool :=
  (matchCI ['Q', ':'] cs).isSome || lookAtEnd cs

/-- The lookahead `(?=Question:|$)` of the second parsing pattern. -/
def p2Look (cs : List Char) : Bool :=
  (matchCI "Question:".data cs).isSome || lookAtEnd cs

/-- The lookahead `(?=\d+\.|$)` of the third parsing pattern. -/
def p3Look (cs : List Char) : Bool :=
  (match cs.dropWhile Char.isDigit with
   | '.' :: _ => (cs.takeWhile Char.isDigit) ≠ []
   | _ => false) ||
  lookAtEnd cs

/-- Lazy `(.+?)` ended by a lookahead (`re.DOTALL`, so any character may
be consumed): take the minimal nonempty prefix after which `look` holds,
returning the captured group and the remainder. -/
def lazyGroupTo (look : List Char → Bool) : List Char → Option (List Char × List Char)
  | [] => none
  | c :: rest =>
      if look rest then some ([c], rest)
      else
        match lazyGroupTo look rest with
        | some (g, rem) => some (c :: g, rem)
        | none => none

/-- `\s*(.+?)(?=look)` with `\s*` backtracking: the greedy whitespace run
is tried longest first; on failure one whitespace character at a time is
released into the lazy group.  `wsRev` is the not-yet-released part of
the whitespace run, reversed, and `cs` the current group start. -/
def wsBacktrackGroup (look : List Char → Bool) (wsRev : List Char) (cs : List Char) :
    Option (List Char × List Char) :=
  match lazyGroupTo look cs with
  | some r => some r
  | none =>
      match wsRev with
      | [] => none
      | w :: ws => wsBacktrackGroup look ws (w :: cs)

/-- `\s*(.+?)(?=look)` starting at `cs`. -/
def groupAfterWs (look : List Char → Bool) (cs : List Char) :
    Option (List Char × List Char) :=
  wsBacktrackGroup look (cs.takeWhile isPyWs).reverse (cs.dropWhile isPyWs)

/-- `(.+?)\s*LIT\s*(.+?)(?=look)`: the first lazy group grows one
character at a time; at each stop the deterministic `\s*LIT` is checked
(`LIT` starts with a non-whitespace letter, so only the maximal
whitespace run can precede it) and the rest of the pattern must succeed,
otherwise the group keeps growing.  Returns both groups and the
remainder at the lookahead position. -/
def qaTail (lit : List Char) (look : List Char → Bool) :
    List Char → Option (List Char × List Char × List Char)
  | [] => none
  | c :: rest =>
      let attempt :=
        match matchCI lit (rest.dropWhile isPyWs) with
        | some afterLit => groupAfterWs look afterLit
        | none => none
      match attempt with
      | some (g2, rem) => some ([c], g2, rem)
      | none =>
          match qaTail lit look rest with
          | some (g1, g2, rem) => some (c :: g1, g2, rem)
          | none => none

/-- `\s*(.+?)\s*LIT\s*(.+?)(?=look)` with backtracking of the leading
`\s*` into the first group, longest whitespace run first. -/
def qaBody (lit : List Char) (look : List Char → Bool) :
    List Char → List Char → Option (List Char × List Char × List Char)
  | wsRev, cs =>
      match qaTail lit look cs with
      | some r => some r
      | none =>
          match wsRev with
          | [] => none
          | w :: ws => qaBody lit look ws (w :: cs)

/-- One attempted match of `Q:\s*(.+?)\s*A:\s*(.+?)(?=Q:|$)`
(`re.DOTALL | re.IGNORECASE`) at the current position. -/
def p1MatchAt (cs : List Char) : Option (List Char × List Char × List Char) :=
  match matchCI ['Q', ':'] cs with
  | some afterQ =>
      qaBody ['A', ':'] p1Look (afterQ.takeWhile isPyWs).reverse
        (afterQ.dropWhile isPyWs)
  | none => none

/-- One attempted match of
`Question:\s*(.+?)\s*Answer:\s*(.+?)(?=Question:|$)` at the current
position. -/
def p2MatchAt (cs : List Char) : Option (List Char × List Char × List Char) :=
  match matchCI "Question:".data cs with
  | some afterQ =>
      qaBody "Answer:".data p2Look (afterQ.takeWhile isPyWs).reverse
        (afterQ.dropWhile isPyWs)
  | none => none

/-- One attempted match of
`(\d+)\.\s*Q:\s*(.+?)\s*A:\s*(.+?)(?=\d+\.|$)` at the current position;
the greedy `\d+` run is maximal (a shorter run would be followed by a
digit, not the literal dot). -/
def p3MatchAt (cs : List Char) :
    Option (List Char × List Char × List Char × List Char) :=
  let ds := cs.takeWhile Char.isDigit
  if ds = [] then none
  else
    match cs.dropWhile Char.isDigit with
    | '.' :: r2 =>
        match matchCI ['Q', ':'] (r2.dropWhile isPyWs) with
        | some afterQ =>
            match qaBody ['A', ':'] p3Look (afterQ.takeWhile isPyWs).reverse
                (afterQ.dropWhile isPyWs) with
            | some (g1, g2, rem) => some (ds, g1, g2, rem)
            | none => none
        | none => none
    | _ => none

/-- `re.findall` scan for the first pattern: try a match at every
position, emit non-overlapping matches left to right. -/
def p1FindallAux (fuel : Nat) (cs : List Char) : List (String × String) :=
  match fuel with
  | 0 => []
  | fuel + 1 =>
      match cs with
      | [] => []
      | _ :: rest =>
          match p1MatchAt cs with
          | some (g1, g2, rem) =>
              (g1.asString, g2.asString) :: p1FindallAux fuel rem
          | none => p1FindallAux fuel rest

/-- `re.findall` scan for the second pattern. -/
def p2FindallAux (fuel : Nat) (cs : List Char) : List (String × String) :=
  match fuel with
  | 0 => []
  | fuel + 1 =>
      match cs with
      | [] => []
      | _ :: rest =>
          match p2MatchAt cs with
          | some (g1, g2, rem) =>
              (g1.asString, g2.asString) :: p2FindallAux fuel rem
          | none => p2FindallAux fuel rest

/-- `re.findall` scan for the third (numbered) pattern, keeping all three
capture groups. -/
def p3FindallAux (fuel : Nat) (cs : List Char) : List (String × String × String) :=
  match fuel with
  | 0 => []
  | fuel + 1 =>
      match cs with
      | [] => []
      | _ :: rest =>
          match p3MatchAt cs with
          | some (g0, g1, g2, rem) =>
              (g0.asString, g1.asString, g2.asString) :: p3FindallAux fuel rem
          | none => p3FindallAux fuel rest

/-- Matches of `Q:\s*(.+?)\s*A:\s*(.+?)(?=Q:|$)` over a string. -/
def p1Findall (text : String) : List (String × String) :=
  p1FindallAux (text.data.length + 1) text.data

/-- Matches of `Question:\s*(.+?)\s*Answer:\s*(.+?)(?=Question:|$)`. -/
def p2Findall (text : String) : List (String × String) :=
  p2FindallAux (text.data.length + 1) text.data

/-- Matches of `(\d+)\.\s*Q:\s*(.+?)\s*A:\s*(.+?)(?=\d+\.|$)`. -/
def p3Findall (text : String) : List (String × String × String) :=
  p3FindallAux (text.data.length + 1) text.data

/-- The per-match body of `_parse_generated_flashcards`: strip both
groups and keep the pair only when both exceed 5 characters. -/
def keepPair (q a : String) : Option FlashcardPair :=
  let question := pyStrip q
  let answer := pyStrip a
  if 5 < question.length && 5 < answer.length then
    some { question := question, answer := answer
           difficulty := "medium", confidence := mkRat 7 10 }
  else none

/-- `AIFlashcardGenerator._parse_generated_flashcards`: the three
patterns are tried in order and every match of every pattern is appended
to one list (the numbered pattern drops its leading number group). -/
def parse_generated_flashcards (text : String) : List FlashcardPair :=
  ((p1Findall text).filterMap fun m => keepPair m.1 m.2) ++
  ((p2Findall text).filterMap fun m => keepPair m.1 m.2) ++
  ((p3Findall text).filterMap fun m => keepPair m.2.1 m.2.2)

/-- The strategy loop of `generate_flashcards` (lines 54-64): each
strategy outcome is either a raised exception (`Except.error`, caught and
skipped) or a card list, returned truncated to `count` when it has at
least `count` cards; when no strategy suffices the fallback result is
returned. -/
def run_strategies (count : Nat) (fallback : List FlashcardPair) :
    List (Except String (List FlashcardPair)) → List FlashcardPair
  | [] => fallback
  | Except.error _ :: rest => run_strategies count fallback rest
  | Except.ok flashcards :: rest =>
      if count ≤ flashcards.length then flashcards.take count
      else run_strategies count fallback rest

/-- `AIFlashcardGenerator.generate_flashcards`: without an API key the
fallback generator is used directly; otherwise the three strategies
(whose network-dependent outcomes are modelled as the
`strategy_results` list, in order) are tried by `run_strategies`. -/
def generate_flashcards (api_key : Option String) (notes : String) (count : Nat)
    (strategy_results : List (Except String (List FlashcardPair))) :
    List FlashcardPair :=
  match api_key with
  | none => create_fallback_flashcards notes count
  | some _ => run_strategies count (create_fallback_flashcards notes count) strategy_results

/-- `TextProcessor.academic_keywords` from `text_processing.py`, in the
dict's insertion order (Python dicts iterate in insertion order). -/
def academic_keywords : List (String × List String) :=
  [("definition", ["define", "definition", "meaning", "refers to", "is defined as"]),
   ("process", ["process", "procedure", "method", "steps", "stages"]),
   ("cause_effect", ["because", "therefore", "as a result", "leads to", "causes"]),
   ("comparison", ["compared to", "unlike", "similar to", "different from"]),
   ("importance", ["important", "significant", "crucial", "essential", "key"])]

/-- The academic-keyword double loop of `_score_sentence` (lines 65-68):
every keyword of every category that occurs in the lowercased sentence
adds 0.5 to the running score `acc`. -/
def academicFoldFrom (acc : ℚ) (sentence_lower : String) : ℚ :=
  academic_keywords.foldl
    (fun score cat =>
      cat.2.foldl
        (fun score keyword =>
          if strContains sentence_lower keyword then score + 1 / 2 else score)
        score)
    acc

/-- The academic-cue contribution of `_score_sentence` in isolation
(the double loop run from score 0). -/
def academicCueScore (sentence_lower : String) : ℚ :=
  academicFoldFrom 0 sentence_lower

/-- Number of (category, phrase) pairs whose phrase occurs in the
lowercased sentence. -/
def phrasesMatched (sentence_lower : String) : Nat :=
  (((academic_keywords.map Prod.snd).flatten).filter
    (fun kw => strContains sentence_lower kw)).length

/-- Follows the spec's words for comparison with `academicCueScore`:
"+0.5 per category matched (not per phrase)" — 0.5 times the number of
categories having at least one phrase occurring in the lowercased
sentence. -/
def specCueScore (sentence_lower : String) : ℚ :=
  ((academic_keywords.filter
      (fun cat => cat.2.any (fun kw => strContains sentence_lower kw))).length : ℚ)
    * (1 / 2)

/-- Count of `re.findall(r'\b[A-Z][a-z]+\b', sentence)` matches: a
capitalized word with maximal lowercase run and word boundaries on both
sides. -/
def capSingleCountAux (fuel : Nat) (prevWord : Bool) (cs : List Char) : Nat :=
  match fuel with
  | 0 => 0
  | fuel + 1 =>
      match cs with
      | [] => 0
      | c :: rest =>
          if prevWord then capSingleCountAux fuel (isWordChar c) rest
          else if isUpperAZ c then
            let low := rest.takeWhile isLowerAZ
            let rest' := rest.dropWhile isLowerAZ
            if low ≠ [] && rest'.head?.all (fun d => !isWordChar d) then
              1 + capSingleCountAux fuel true rest'
            else capSingleCountAux fuel (isWordChar c) rest
          else capSingleCountAux fuel (isWordChar c) rest

/-- `len(re.findall(r'\b[A-Z][a-z]+\b', sentence))`. -/
def capSingleCount (sentence : String) : Nat :=
  capSingleCountAux (sentence.data.length + 1) false sentence.data

/-- Count of `re.findall(r'\b\d+\b', sentence)` matches: a maximal digit
run with word boundaries on both sides. -/
def numTokenCountAux (fuel : Nat) (prevWord : Bool) (cs : List Char) : Nat :=
  match fuel with
  | 0 => 0
  | fuel + 1 =>
      match cs with
      | [] => 0
      | c :: rest =>
          if prevWord then numTokenCountAux fuel (isWordChar c) rest
          else if c.isDigit then
            let rest' := rest.dropWhile Char.isDigit
            if rest'.head?.all (fun d => !isWordChar d) then
              1 + numTokenCountAux fuel true rest'
            else numTokenCountAux fuel (isWordChar c) rest
          else numTokenCountAux fuel (isWordChar c) rest

/-- `len(re.findall(r'\b\d+\b', sentence))`. -/
def numTokenCount (sentence : String) : Nat :=
  numTokenCountAux (sentence.data.length + 1) false sentence.data

/-- `TextProcessor._score_sentence` from `text_processing.py`.  The NLTK
tokenizer is third-party code and is passed in as the abstract
`word_tokenize` argument; `full_text` is accepted and ignored exactly as
in the source.  Float literals are modelled as exact rationals. -/
def score_sentence (word_tokenize : String → List String)
    (sentence : String) (full_text : String) : ℚ :=
  let words := word_tokenize (pyLower sentence)
  let score0 : ℚ := 0
  let score1 :=
    if 5 ≤ words.length ∧ words.length ≤ 25 then score0 + 1
    else if words.length < 5 then score0 - 1 / 2
    else score0
  let sentence_lower := pyLower sentence
  let score2 := academicFoldFrom score1 sentence_lower
  let score3 := score2 + (capSingleCount sentence : ℚ) * (1 / 5)
  let score4 := score3 + (numTokenCount sentence : ℚ) * (3 / 10)
  let _ := full_text
  if strEndsWith (pyStrip sentence) "?" then score4 + 1 / 2 else score4

/-- Padding invariant: with a step budget of at least
`count - cards.length` the padding loop reaches at least `count` cards. -/
theorem padLoopAux_length_ge :
    ∀ (fuel : Nat) (cards : List FlashcardPair) (count : Nat),
      count - cards.length ≤ fuel →
      count ≤ (padLoopAux fuel cards count).length := by
  intro fuel
  induction fuel with
  | zero =>
      intro cards count h
      simp only [padLoopAux]
      omega
  | succ fuel ih =>
      intro cards count h
      simp only [padLoopAux]
      by_cases hlt : cards.length < count
      · rw [if_pos hlt]
        apply ih
        simp only [List.length_append, List.length_cons, List.length_nil]
        omega
      · rw [if_neg hlt]
        omega

/-- C1: for every notes string and every `count ≥ 1`, the fallback
generator `_create_fallback_flashcards` returns a list of exactly
`count` `FlashcardPair` candidates.  (It is a total Lean function built
from pure local computations, so it can neither raise nor touch the
network; the padding loop guarantees at least `count` cards and the
final truncation exactly `count`.) -/
theorem fallback_returns_exactly_count (notes : String) (count : Nat)
    (_hcount : 1 ≤ count) :
    (create_fallback_flashcards notes count).length = count := by
  unfold create_fallback_flashcards padLoop
  simp only [List.length_take]
  exact Nat.min_eq_left (padLoopAux_length_ge count _ count (Nat.sub_le _ _))

/-- Witness for C1 at a concrete input. -/
theorem fallback_returns_exactly_count_witness :
    1 ≤ 5 ∧ (create_fallback_flashcards "Cats are nice" 5).length = 5 :=
  ⟨by decide, fallback_returns_exactly_count "Cats are nice" 5 (by decide)⟩

/-- When every strategy outcome in the list is either an exception or a
card list shorter than `count`, the strategy loop falls through to the
fallback result. -/
theorem run_strategies_all_insufficient (count : Nat) (fb : List FlashcardPair) :
    ∀ results : List (Except String (List FlashcardPair)),
      (∀ cards : List FlashcardPair, Except.ok cards ∈ results →
        cards.length < count) →
      run_strategies count fb results = fb := by
  intro results
  induction results with
  | nil => intro _; rfl
  | cons r rest ih =>
      intro h
      cases r with
      | error e =>
          exact ih (fun cards hc => h cards (List.mem_cons_of_mem _ hc))
      | ok cards =>
          have hlt : cards.length < count := h cards (List.mem_cons_self _ _)
          simp only [run_strategies]
          rw [if_neg (Nat.not_le.mpr hlt)]
          exact ih (fun cards hc => h cards (List.mem_cons_of_mem _ hc))

/-- C2: the orchestration of `generate_flashcards` over the three
strategy outcomes (given in order): a first strategy reaching `count`
cards wins and is truncated to exactly `count`; an outcome that raised
is skipped (`run_strategies` is total, so no exception escapes); the
empty tail returns the fallback result, and when no strategy reaches
`count` the fallback generator's result is returned. -/
theorem generate_flashcards_orchestration :
    (∀ (k notes : String) (count : Nat)
        (r2 r3 : Except String (List FlashcardPair))
        (cards : List FlashcardPair), count ≤ cards.length →
          generate_flashcards (some k) notes count [Except.ok cards, r2, r3]
              = cards.take count
            ∧ (cards.take count).length = count)
    ∧ (∀ (count : Nat) (fallback : List FlashcardPair) (e : String)
          (rest : List (Except String (List FlashcardPair))),
          run_strategies count fallback (Except.error e :: rest)
            = run_strategies count fallback rest)
    ∧ (∀ (count : Nat) (fallback : List FlashcardPair)
          (cards : List FlashcardPair)
          (rest : List (Except String (List FlashcardPair))),
          cards.length < count →
          run_strategies count fallback (Except.ok cards :: rest)
            = run_strategies count fallback rest)
    ∧ (∀ (count : Nat) (fallback : List FlashcardPair),
          run_strategies count fallback [] = fallback)
    ∧ (∀ (k notes : String) (count : Nat)
          (results : List (Except String (List FlashcardPair))),
          (∀ cards : List FlashcardPair, Except.ok cards ∈ results →
            cards.length < count) →
          generate_flashcards (some k) notes count results
            = create_fallback_flashcards notes count) := by
  refine ⟨?_, ?_, ?_, ?_, ?_⟩
  · intro k notes count r2 r3 cards h
    constructor
    · simp [generate_flashcards, run_strategies, h]
    · simp only [List.length_take]
      omega
  · intro count fb e rest; rfl
  · intro count fb cards rest h
    simp only [run_strategies]
    rw [if_neg (Nat.not_le.mpr h)]
  · intro count fb; rfl
  · intro k notes count results h
    simp only [generate_flashcards]
    exact run_strategies_all_insufficient count _ results h

/-- Concrete strategy outputs used by the orchestration witness. -/
def demoCards : List FlashcardPair :=
  [{ question := "Whatis one?", answer := "Answer one.", confidence := mkRat 7 10 },
   { question := "Whatis two?", answer := "Answer two.", confidence := mkRat 7 10 },
   { question := "Whatis three?", answer := "Answer three.", confidence := mkRat 7 10 }]

/-- Witness for C2 at concrete inputs. -/
theorem generate_flashcards_orchestration_witness :
    2 ≤ demoCards.length ∧
    generate_flashcards (some "key") "some notes" 2
        [Except.ok demoCards, Except.error "timeout", Except.ok []]
      = demoCards.take 2 :=
  ⟨by decide, (generate_flashcards_orchestration.1 "key" "some notes" 2
      (Except.error "timeout") (Except.ok []) demoCards (by decide)).1⟩

/-- A card whose stored question carries surrounding whitespace. -/
def dupCard : CardDict := { question := " hello ", answer := "abc" }

/-- C3 counterexample: two input cards with literally identical (hence
case-insensitively equal) questions are BOTH kept by
`validate_flashcard_quality`, because the duplicate check compares the
stripped question of the candidate (`"hello"`) against the raw stored
question of the earlier-kept card (`" hello "`).  This falsifies both
"no two kept cards have case-insensitively equal questions" and "only
the earliest one is kept". -/
theorem validate_flashcard_quality_cex :
    validate_flashcard_quality [dupCard, dupCard] = [dupCard, dupCard] := by
  decide

/-- The validator's output is a sublist (subsequence in order, fields
unchanged) of `acc ++ cards`. -/
theorem validateLoop_sublist :
    ∀ (cards acc : List CardDict), (validateLoop acc cards).Sublist (acc ++ cards) := by
  intro cards
  induction cards with
  | nil => intro acc; simp [validateLoop]
  | cons card rest ih =>
      intro acc
      simp only [validateLoop]
      split
      · exact (ih acc).trans
          ((List.Sublist.cons _ (List.Sublist.refl rest)).append_left acc)
      · split
        · exact (ih acc).trans
            ((List.Sublist.cons _ (List.Sublist.refl rest)).append_left acc)
        · have h := ih (acc ++ [card])
          rwa [List.append_assoc, List.singleton_append] at h

/-- Every card kept by the validator loop — beyond those already in the
accumulator — has a stripped question of length at least 5 and a
stripped answer of length at least 3. -/
theorem validateLoop_quality :
    ∀ (cards acc : List CardDict),
      (∀ c ∈ acc, 5 ≤ (pyStrip c.question).length ∧ 3 ≤ (pyStrip c.answer).length) →
      ∀ c ∈ validateLoop acc cards,
        5 ≤ (pyStrip c.question).length ∧ 3 ≤ (pyStrip c.answer).length := by
  intro cards
  induction cards with
  | nil => intro acc hacc; simpa [validateLoop] using hacc
  | cons card rest ih =>
      intro acc hacc
      simp only [validateLoop]
      split
      · exact ih acc hacc
      · split
        · exact ih acc hacc
        · rename_i hlen _
          refine ih (acc ++ [card]) ?_
          intro c hc
          rcases List.mem_append.mp hc with h | h
          · exact hacc c h
          · rcases List.mem_singleton.mp h with rfl
            push_neg at hlen
            omega

/-- When every input question is already stripped, the kept cards have
pairwise distinct lowercased questions (the duplicate check then
compares like with like). -/
theorem validateLoop_pairwise :
    ∀ (cards acc : List CardDict),
      (∀ c ∈ cards, pyStrip c.question = c.question) →
      acc.Pairwise (fun a b => pyLower a.question ≠ pyLower b.question) →
      (validateLoop acc cards).Pairwise
        (fun a b => pyLower a.question ≠ pyLower b.question) := by
  intro cards
  induction cards with
  | nil => intro acc _ hacc; simpa [validateLoop] using hacc
  | cons card rest ih =>
      intro acc htrim hacc
      have htrim' : ∀ c ∈ rest, pyStrip c.question = c.question :=
        fun c hc => htrim c (List.mem_cons_of_mem _ hc)
      have hcard : pyStrip card.question = card.question :=
        htrim card (List.mem_cons_self _ _)
      simp only [validateLoop]
      split
      · exact ih acc htrim' hacc
      · split
        · exact ih acc htrim' hacc
        · rename_i hdup
          refine ih (acc ++ [card]) htrim' ?_
          rw [List.pairwise_append]
          refine ⟨hacc, List.pairwise_singleton _ _, ?_⟩
          intro a ha b hb
          rcases List.mem_singleton.mp hb with rfl
          rw [List.any_eq_true] at hdup
          push_neg at hdup
          have := hdup a ha
          rw [hcard] at this
          simpa using this

/-- The accumulator is stable: the loop only ever appends to it. -/
theorem validateLoop_prefix :
    ∀ (cards acc : List CardDict), ∃ t, validateLoop acc cards = acc ++ t := by
  intro cards
  induction cards with
  | nil => intro acc; exact ⟨[], by simp [validateLoop]⟩
  | cons card rest ih =>
      intro acc
      simp only [validateLoop]
      split
      · exact ih acc
      · split
        · exact ih acc
        · rcases ih (acc ++ [card]) with ⟨t, ht⟩
          exact ⟨card :: t, by rw [ht, List.append_assoc, List.singleton_append]⟩

/-- First occurrence wins: a card `c` that passes the quality check is
kept whenever no accumulator card and no earlier quality-passing input
card blocks it — where `b` blocks `c` when `pyLower b.question` equals
the lowercased stripped question of `c`, exactly the comparison the
loop performs.  (Earlier cards failing the quality check are never
kept, so they cannot block.) -/
theorem validateLoop_first_kept :
    ∀ (l1 acc : List CardDict) (c : CardDict) (l2 : List CardDict),
      5 ≤ (pyStrip c.question).length → 3 ≤ (pyStrip c.answer).length →
      (∀ b ∈ acc, pyLower b.question ≠ pyLower (pyStrip c.question)) →
      (∀ b ∈ l1, 5 ≤ (pyStrip b.question).length →
        3 ≤ (pyStrip b.answer).length →
        pyLower b.question ≠ pyLower (pyStrip c.question)) →
      c ∈ validateLoop acc (l1 ++ c :: l2) := by
  intro l1
  induction l1 with
  | nil =>
      intro acc c l2 hq ha hacc _
      simp only [List.nil_append, validateLoop]
      rw [if_neg (by omega :
        ¬((pyStrip c.question).length < 5 ∨ (pyStrip c.answer).length < 3))]
      rw [if_neg (show ¬(acc.any (fun existing =>
          pyLower existing.question = pyLower (pyStrip c.question)) = true) by
        simp only [List.any_eq_true, decide_eq_true_eq]
        push_neg
        exact hacc)]
      rcases validateLoop_prefix l2 (acc ++ [c]) with ⟨t, ht⟩
      rw [ht]
      simp
  | cons b l1 ih =>
      intro acc c l2 hq ha hacc hl1
      have hl1' : ∀ x ∈ l1, 5 ≤ (pyStrip x.question).length →
          3 ≤ (pyStrip x.answer).length →
          pyLower x.question ≠ pyLower (pyStrip c.question) :=
        fun x hx => hl1 x (List.mem_cons_of_mem _ hx)
      simp only [List.cons_append, validateLoop]
      split
      · exact ih acc c l2 hq ha hacc hl1'
      · split
        · exact ih acc c l2 hq ha hacc hl1'
        · rename_i hqual _
          refine ih (acc ++ [b]) c l2 hq ha ?_ hl1'
          intro x hx
          rcases List.mem_append.mp hx with hx | hx
          · exact hacc x hx
          · rw [List.mem_singleton.mp hx]
            push_neg at hqual
            exact hl1 b (List.mem_cons_self _ _) (by omega) (by omega)

/-- C3 amended: `validate_flashcard_quality` returns a subsequence of
its input in order with fields unchanged; every kept card has stripped
question length at least 5 and stripped answer length at least 3; for
inputs whose questions are already stripped — which is what the
duplicate check actually compares — no two kept cards have
case-insensitively equal questions; and first occurrence wins: a card
passing the quality check such that no earlier quality-passing card's
raw question case-insensitively equals its stripped question is always
kept.  Unstripped questions can defeat the duplicate check, as the
counterexample shows. -/
theorem validate_flashcard_quality_amended :
    (∀ cards : List CardDict, (validate_flashcard_quality cards).Sublist cards)
    ∧ (∀ cards : List CardDict, ∀ c ∈ validate_flashcard_quality cards,
        5 ≤ (pyStrip c.question).length ∧ 3 ≤ (pyStrip c.answer).length)
    ∧ (∀ cards : List CardDict,
        (∀ c ∈ cards, pyStrip c.question = c.question) →
        (validate_flashcard_quality cards).Pairwise
          (fun a b => pyLower a.question ≠ pyLower b.question))
    ∧ (∀ (l1 : List CardDict) (c : CardDict) (l2 : List CardDict),
        5 ≤ (pyStrip c.question).length → 3 ≤ (pyStrip c.answer).length →
        (∀ b ∈ l1, 5 ≤ (pyStrip b.question).length →
          3 ≤ (pyStrip b.answer).length →
          pyLower b.question ≠ pyLower (pyStrip c.question)) →
        c ∈ validate_flashcard_quality (l1 ++ c :: l2)) := by
  refine ⟨?_, ?_, ?_, ?_⟩
  · intro cards
    simpa using validateLoop_sublist cards []
  · intro cards c hc
    exact validateLoop_quality cards [] (by simp) c hc
  · intro cards htrim
    exact validateLoop_pairwise cards [] htrim List.Pairwise.nil
  · intro l1 c l2 hq ha hblock
    exact validateLoop_first_kept l1 [] c l2 hq ha (by simp) hblock

/-- Concrete input for the C3 amended witness: stripped questions, one
case-insensitive duplicate. -/
def demoDicts : List CardDict :=
  [{ question := "Hello there", answer := "yes" },
   { question := "hello THERE", answer := "sure thing" },
   { question := "Second question", answer := "ok" }]

/-- Witness for C3 amended at a concrete input: the questions are all
stripped, the kept questions are pairwise distinct case-insensitively,
and the earliest of the two duplicates (`"Hello there"`) is kept. -/
theorem validate_flashcard_quality_amended_witness :
    demoDicts.all (fun c => pyStrip c.question == c.question) = true
    ∧ (validate_flashcard_quality demoDicts).Pairwise
        (fun a b => pyLower a.question ≠ pyLower b.question)
    ∧ ({ question := "Hello there", answer := "yes" } : CardDict)
        ∈ validate_flashcard_quality demoDicts :=
  ⟨by decide,
   validate_flashcard_quality_amended.2.2.1 demoDicts (by decide),
   validate_flashcard_quality_amended.2.2.2 []
     { question := "Hello there", answer := "yes" }
     [{ question := "hello THERE", answer := "sure thing" },
      { question := "Second question", answer := "ok" }]
     (by decide) (by decide) (by simp)⟩

/-- C4: `assess_difficulty` returns `"hard"` exactly when the lowercased
question contains one of the five complex words or the answer has more
than 20 whitespace-separated words; otherwise `"medium"` exactly when
the question or the answer has more than 10 words; otherwise `"easy"` —
the hard check strictly first.  In particular a question containing
`"compare"` with a 25-word answer is `"hard"` regardless of question
length. -/
theorem assess_difficulty_spec (q a : String) :
    (assess_difficulty q a = "hard" ↔
      ((∃ w ∈ complex_words, strContains (pyLower q) w = true)
        ∨ 20 < (pySplit a).length))
    ∧ (assess_difficulty q a = "medium" ↔
      (¬((∃ w ∈ complex_words, strContains (pyLower q) w = true)
          ∨ 20 < (pySplit a).length)
        ∧ (10 < (pySplit q).length ∨ 10 < (pySplit a).length)))
    ∧ (assess_difficulty q a = "easy" ↔
      (¬((∃ w ∈ complex_words, strContains (pyLower q) w = true)
          ∨ 20 < (pySplit a).length)
        ∧ ¬(10 < (pySplit q).length ∨ 10 < (pySplit a).length)))
    ∧ (strContains (pyLower q) "compare" = true → (pySplit a).length = 25 →
        assess_difficulty q a = "hard") := by
  have hc : (complex_words.any (fun word => strContains (pyLower q) word)) = true
      ↔ (∃ w ∈ complex_words, strContains (pyLower q) w = true) :=
    List.any_eq_true
  simp only [assess_difficulty]
  split_ifs with h1 h2
  · rw [Bool.or_eq_true, decide_eq_true_eq, hc] at h1
    refine ⟨⟨fun _ => h1, fun _ => rfl⟩,
            ⟨fun he => absurd he (by decide), fun hcon => absurd h1 hcon.1⟩,
            ⟨fun he => absurd he (by decide), fun hcon => absurd h1 hcon.1⟩,
            fun _ _ => rfl⟩
  · rw [Bool.or_eq_true, decide_eq_true_eq, hc] at h1
    simp only [Bool.or_eq_true, decide_eq_true_eq] at h2
    refine ⟨⟨fun he => absurd he (by decide), fun hH => absurd hH h1⟩,
            ⟨fun _ => ⟨h1, h2⟩, fun _ => rfl⟩,
            ⟨fun he => absurd he (by decide), fun hcon => absurd h2 hcon.2⟩,
            fun hcmp hlen => (h1 (Or.inr (by omega))).elim⟩
  · rw [Bool.or_eq_true, decide_eq_true_eq, hc] at h1
    simp only [Bool.or_eq_true, decide_eq_true_eq] at h2
    refine ⟨⟨fun he => absurd he (by decide), fun hH => absurd hH h1⟩,
            ⟨fun he => absurd he (by decide), fun hcon => absurd hcon.2 h2⟩,
            ⟨fun _ => ⟨h1, h2⟩, fun _ => rfl⟩,
            fun hcmp hlen => (h1 (Or.inr (by omega))).elim⟩

/-- Question and 25-word answer for the C4 witness. -/
def compareQuestion : String := "Compare mitosis and meiosis"

/-- A 25-word answer for the C4 witness. -/
def longAnswer : String :=
  "one two three four five six seven eight nine ten eleven twelve " ++
  "thirteen fourteen fifteen sixteen seventeen eighteen nineteen twenty " ++
  "alpha beta gamma delta epsilon"

/-- Witness for C4 at a concrete input. -/
theorem assess_difficulty_spec_witness :
    strContains (pyLower compareQuestion) "compare" = true
    ∧ (pySplit longAnswer).length = 25
    ∧ assess_difficulty compareQuestion longAnswer = "hard" :=
  ⟨by decide, by decide,
   (assess_difficulty_spec compareQuestion longAnswer).2.2.2 (by decide) (by decide)⟩

/-- The inner keyword loop adds exactly 0.5 per keyword satisfying `p`,
on top of the running score. -/
theorem foldl_half (p : String → Bool) :
    ∀ (kws : List String) (acc : ℚ),
      kws.foldl (fun sc kw => if p kw then sc + 1 / 2 else sc) acc
        = acc + ((kws.filter p).length : ℚ) / 2 := by
  intro kws
  induction kws with
  | nil => intro acc; simp
  | cons k ks ih =>
      intro acc
      by_cases hp : p k = true
      · simp only [List.foldl_cons, List.filter_cons, hp, if_true]
        rw [ih]
        push_cast [List.length_cons]
        ring
      · simp only [List.foldl_cons, List.filter_cons, hp, if_false]
        exact ih acc

/-- The category double loop adds exactly 0.5 per (category, keyword)
pair whose keyword satisfies `p`, on top of the running score. -/
theorem foldl_cats (p : String → Bool) :
    ∀ (cats : List (String × List String)) (acc : ℚ),
      cats.foldl
        (fun score cat =>
          cat.2.foldl (fun score kw => if p kw then score + 1 / 2 else score) score)
        acc
        = acc + (((cats.map Prod.snd).flatten.filter p).length : ℚ) / 2 := by
  intro cats
  induction cats with
  | nil => intro acc; simp
  | cons c cs ih =>
      intro acc
      simp only [List.foldl_cons, List.map_cons, List.flatten_cons,
        List.filter_append, List.length_append]
      rw [foldl_half p c.2 acc, ih]
      push_cast
      ring

/-- The academic-cue loop of `_score_sentence`, instantiated: its
contribution over any running score is 0.5 per matching phrase. -/
theorem academicFold_eq (s : String) (acc : ℚ) :
    academicFoldFrom acc s = acc + (phrasesMatched s : ℚ) / 2 := by
  simp only [academicFoldFrom, phrasesMatched]
  exact foldl_cats (fun kw => strContains s kw) academic_keywords acc

/-- C5 amended: inside `_score_sentence` the academic-cue loop adds 0.5
for every (category, phrase) pair whose phrase occurs in the lowercased
sentence — i.e. 0.5 per matching phrase, several phrases of one category
each counting — regardless of the running score it starts from. -/
theorem academic_cue_per_phrase (acc : ℚ) (s : String) :
    academicFoldFrom acc s = acc + (phrasesMatched s : ℚ) / 2 :=
  academicFold_eq s acc

/-- C5 counterexample: in `"define the definition"` exactly one category
(definition) matches, through two of its phrases (`"define"` and
`"definition"`); the code's contribution is 1.0, not the claimed
0.5 × (number of matched categories) = 0.5. -/
theorem academic_cue_cex :
    academicCueScore "define the definition" = 1
    ∧ specCueScore "define the definition" = 1 / 2
    ∧ academicCueScore "define the definition"
        ≠ specCueScore "define the definition" := by
  have hfold := academicFold_eq "define the definition" 0
  rw [show phrasesMatched "define the definition" = 2 from by decide] at hfold
  have h2 : academicCueScore "define the definition" = 1 := by
    simp only [academicCueScore]
    rw [hfold]
    norm_num
  have h3 : specCueScore "define the definition" = 1 / 2 := by
    have hcat : (academic_keywords.filter
        (fun cat => cat.2.any (fun kw => strContains "define the definition" kw))).length
        = 1 := by decide
    simp only [specCueScore]
    rw [hcat]
    norm_num
  exact ⟨h2, h3, by rw [h2, h3]; norm_num⟩

/-- C6 counterexample: splitting `"Hello world. Bye."` on `[.!?]+`
boundaries yields the (stripped) sentences `"Hello world"` and `"Bye"`,
both of length at most 20 — yet `_split_into_sentences` returns neither:
the 20-character filter runs inside the segmenter, not only in callers. -/
theorem split_into_sentences_cex :
    split_into_sentences "Hello world. Bye." = []
    ∧ (reSplitSent "Hello world. Bye.").map pyStrip = ["Hello world", "Bye", ""] := by
  decide

/-- C6 amended: the segmenter itself strips each fragment and filters,
returning only sentences of stripped length strictly greater than 20;
short sentences never reach any caller. -/
theorem split_into_sentences_filters (text : String) :
    ∀ s ∈ split_into_sentences text, 20 < s.length := by
  intro s hs
  rcases List.mem_filter.mp hs with ⟨-, hp⟩
  simpa using hp

/-- Witness for C6 amended at a concrete input. -/
theorem split_into_sentences_filters_witness :
    ("This sentence is easily long enough to pass" ∈
      split_into_sentences "This sentence is easily long enough to pass. Bye.")
    ∧ 20 < ("This sentence is easily long enough to pass" : String).length :=
  ⟨by decide,
   split_into_sentences_filters "This sentence is easily long enough to pass. Bye."
     "This sentence is easily long enough to pass" (by decide)⟩

/-- The spec's concept-extraction scenario input. -/
def krebsText : String :=
  "The \"Krebs Cycle\" occurs in mitochondria (the powerhouse)."

/-- C7: `_extract_key_concepts` does union capitalized runs and quoted
substrings (so `"Krebs Cycle"` is extracted), but its "terms in
parentheses" pattern is `$$([^)]+)$$`, whose anchors make any match of
parenthesized text impossible — `"the powerhouse"` is NOT extracted,
contradicting the code's own `# Find terms in parentheses` comment. -/
theorem extract_key_concepts_paren_bug :
    "Krebs Cycle" ∈ extract_key_concepts krebsText
    ∧ "the powerhouse" ∉ extract_key_concepts krebsText
    ∧ parenMatches krebsText = [] := by
  decide

/-- C8 counterexample: on the exact string `"Q: X? A: Y."` the first
pattern does match (`question = "X?"`, `answer = "Y."`), but the parser
keeps a pair only when both sides exceed 5 characters, so
`_parse_generated_flashcards` returns no candidates — not the one
candidate the claim asserts. -/
theorem parse_roundtrip_cex :
    parse_generated_flashcards "Q: X? A: Y." = [] := by decide

/-- C8 amended: the pattern-level round trip holds (`"Q: X? A: Y."`
matches with question `"X?"` and answer `"Y."`), but the >5-character
filter then drops the pair, so the parser yields nothing; when question
and answer each exceed 5 characters, e.g. `"Q: Xxxxxx? A: Yyyyyy."`,
exactly one candidate is produced with question and answer preserved. -/
theorem parse_roundtrip_amended :
    p1Findall "Q: X? A: Y." = [("X?", "Y.")]
    ∧ parse_generated_flashcards "Q: X? A: Y." = []
    ∧ parse_generated_flashcards "Q: Xxxxxx? A: Yyyyyy."
      = [{ question := "Xxxxxx?", answer := "Yyyyyy.",
           difficulty := "medium", confidence := mkRat 7 10 }] := by
  refine ⟨by decide, by decide, by decide⟩

/-- Notes whose first (and only windowed) sentence yields no blanking
word while a later sentence is eligible. -/
def windowNotes : String :=
  "aaaaaaaaaa bbbbbbbbbb cccc. the quick brown foxes run far away now."

/-- C9 counterexample: with `count = 1` the step-2 window is
`sentences[:1] = ["aaaaaaaaaa bbbbbbbbbb cccc"]` (3 words, ineligible);
the later sentence IS eligible (`blankCard` succeeds on it), yet the
returned card is the placeholder — the skipped sentence consumed the
window slot and the later eligible sentence never filled it. -/
theorem fallback_window_cex :
    create_fallback_flashcards windowNotes 1 = [placeholderCard 1]
    ∧ split_into_sentences windowNotes
      = ["aaaaaaaaaa bbbbbbbbbb cccc", "the quick brown foxes run far away now"]
    ∧ (blankCard "the quick brown foxes run far away now").isSome = true := by
  refine ⟨by decide, by decide, by decide⟩

/-- C9 amended: skipping happens only inside the already-sliced window:
within the step-2 loop an ineligible sentence contributes nothing (the
loop's output equals that with the sentence removed), but the window
`sentences[:remaining]` is fixed before the loop, so sentences beyond it
are never examined and the shortfall is filled by placeholder padding. -/
theorem blankLoop_skips_within_window :
    ∀ (l1 l2 : List String) (s : String), blankCard s = none →
      blankLoop (l1 ++ s :: l2) = blankLoop (l1 ++ l2) := by
  intro l1
  induction l1 with
  | nil => intro l2 s h; simp [blankLoop, h]
  | cons x xs ih =>
      intro l2 s h
      cases hbx : blankCard x with
      | none =>
          simp only [List.cons_append, blankLoop, hbx]
          exact ih l2 s h
      | some card =>
          simp only [List.cons_append, blankLoop, hbx]
          exact congrArg (fun l => card :: l) (ih l2 s h)

/-- Witness for C9 amended at concrete inputs. -/
theorem blankLoop_skips_within_window_witness :
    blankCard "short one" = none
    ∧ blankLoop ["the quick brown foxes run far away now", "short one",
        "other big wordy sentences produce proper blanks here"]
      = blankLoop ["the quick brown foxes run far away now",
        "other big wordy sentences produce proper blanks here"] :=
  ⟨by decide,
   blankLoop_skips_within_window ["the quick brown foxes run far away now"]
     ["other big wordy sentences produce proper blanks here"] "short one" (by decide)⟩

/-- C10: the numbered text `"1. Q: Whatis it? A: Itisthis."` (question
and answer both longer than 5 characters) is matched by the plain
`Q:/A:` pattern AND by the numbered pattern; since every pattern's
matches are all appended to one list, `_parse_generated_flashcards`
returns the same question/answer pair twice. -/
theorem parse_duplicates_numbered :
    p1Findall "1. Q: Whatis it? A: Itisthis." = [("Whatis it?", "Itisthis.")]
    ∧ p3Findall "1. Q: Whatis it? A: Itisthis." = [("1", "Whatis it?", "Itisthis.")]
    ∧ parse_generated_flashcards "1. Q: Whatis it? A: Itisthis."
      = [{ question := "Whatis it?", answer := "Itisthis.",
           difficulty := "medium", confidence := mkRat 7 10 },
         { question := "Whatis it?", answer := "Itisthis.",
           difficulty := "medium", confidence := mkRat 7 10 }] := by
  refine ⟨by decide, by decide, by decide⟩
